import Mathlib

set_option maxRecDepth 8000

/-!
Verification of `netlify/functions/telegram-webhook.js` (vhub).

The JavaScript source is shallowly embedded: each source function becomes a
Lean definition of the same name; JavaScript `Map` state and the Airtable
store become explicit values threaded through the functions; timestamps
(`Date.now()`) become explicit `Nat` arguments; outbound Telegram messages
and Airtable calls become an explicit effect trace.
-/

namespace VHub

/-! ## Rate limiter

Source (`telegram-webhook.js`, lines 60-82):

```js
const RATE_LIMIT_WINDOW_MS = 5000;
const RATE_LIMIT_MAX = 3;
const rateMap = new Map(); // chatId -> {count, resetAt}

function allowRate(chatId) {
  try {
    const now = Date.now();
    let data = rateMap.get(chatId);
    if (!data || now > data.resetAt) {
      data = { count: 1, resetAt: now + RATE_LIMIT_WINDOW_MS };
      rateMap.set(chatId, data);
      return true;
    }
    if (data.count < RATE_LIMIT_MAX) {
      data.count += 1;
      return true;
    }
    return false;
  } catch (e) {
    return true;
  }
}
```

The `Map` is modelled as an association list from chat id to window; `now`
is passed explicitly. The in-place mutation `data.count += 1` (the object
is aliased by the map) is modelled by writing the updated window back into
the map. The `try/catch` cannot fire in the embedded pure code and is
elided.
-/

def RATE_LIMIT_WINDOW_MS : Nat := 5000

def RATE_LIMIT_MAX : Nat := 3

structure RateWindow where
  count : Nat
  resetAt : Nat
  deriving Repr, DecidableEq

/-- The `rateMap` JavaScript `Map`, as an association list. -/
abbrev RateMap := List (Int × RateWindow)

/-- `rateMap.get(chatId)`. -/
def rmGet (rm : RateMap) (chatId : Int) : Option RateWindow :=
  (List.find? (fun p => p.1 == chatId) rm).map (fun p => p.2)

/-- `rateMap.set(chatId, data)`: replace the binding for an existing key
(keys in a JavaScript `Map` are unique), else append a new one. -/
def rmSet : RateMap → Int → RateWindow → RateMap
  | [], chatId, w => [(chatId, w)]
  | p :: rest, chatId, w =>
    if p.1 == chatId then (chatId, w) :: rest else p :: rmSet rest chatId w

/-- `allowRate(chatId)` at time `now`, returning the boolean result and the
updated `rateMap`. -/
def allowRate (now : Nat) (chatId : Int) (rm : RateMap) : Bool × RateMap :=
  match rmGet rm chatId with
  | none => (true, rmSet rm chatId ⟨1, now + RATE_LIMIT_WINDOW_MS⟩)
  | some data =>
    if now > data.resetAt then
      (true, rmSet rm chatId ⟨1, now + RATE_LIMIT_WINDOW_MS⟩)
    else if data.count < RATE_LIMIT_MAX then
      (true, rmSet rm chatId ⟨data.count + 1, data.resetAt⟩)
    else
      (false, rm)

/-- Run `allowRate` for one chat id at each time in `ts`, collecting results. -/
def runCalls (chatId : Int) (ts : List Nat) (rm : RateMap) : List Bool × RateMap :=
  match ts with
  | [] => ([], rm)
  | t :: rest =>
    let (b, rm') := allowRate t chatId rm
    let (bs, rm'') := runCalls chatId rest rm'
    (b :: bs, rm'')

/-! ## Text sanitization

Source (lines 56-58):

```js
function safeText(s) {
  return String(s || '').replace(/[*_`[\]]/g, '');
}
```

The regex character class holds `*`, `_`, the backquote (code point 96),
`[` and `]`. All call sites pass strings, so the `String(s || '')`
coercion is the identity there.
-/

def mdChars : List Char := ['*', '_', Char.ofNat 96, '[', ']']

def safeText (s : String) : String :=
  String.mk (s.data.filter (fun c => !(mdChars.contains c)))

/-! ## Airtable store

A record's `fields` object is modelled by its two fields used in the
source, `Provider` and `Details`; the store is the list of records in the
table. Airtable record ids are elided: the `PATCH` in
`airtableCreateOrUpdate` targets, by id, exactly the first record returned
by the `filterByFormula` query, which is modelled as replacing the first
matching record in place.
-/

structure AirRecord where
  provider : String
  details : String
  deriving Repr, DecidableEq

/-- Airtable configuration from the environment (`AIRTABLE_API_KEY`,
`AIRTABLE_BASE_ID`). `none` = unset; an empty string is falsy in JS. -/
structure AirtableConfig where
  apiKey : Option String
  baseId : Option String
  deriving Repr, DecidableEq

/-- JavaScript truthiness of a possibly-absent string value. -/
def jsTruthyStr : Option String → Bool
  | none => false
  | some s => !s.isEmpty

/-- The guard `AIRTABLE_API_KEY && AIRTABLE_BASE_ID` used by both Airtable
helpers and by `handleCommand`. -/
def airtableConfigured (cfg : AirtableConfig) : Bool :=
  jsTruthyStr cfg.apiKey && jsTruthyStr cfg.baseId

/-- Outcome of the external `fetch` of the table: a non-success HTTP status
(`!res.ok`), or a success whose JSON carries `records` (absent `records`
is `.ok []`, from `j.records || []`). -/
inductive FetchOutcome where
  | notOk
  | ok (records : List AirRecord)
  deriving Repr, DecidableEq

/-- The `pageSize` query parameter in the URL built by `airtableGetAll`. -/
def airtableGetAllPageSize : Nat := 50

/-- `airtableGetAll()` (lines 85-95): `[]` when unconfigured, `[]` on a
non-success response, else the response's records. -/
def airtableGetAll (cfg : AirtableConfig) (outcome : FetchOutcome) : List AirRecord :=
  if !airtableConfigured cfg then []
  else
    match outcome with
    | .notOk => []
    | .ok records => records

/-- `airtableCreateOrUpdate(provider, details)` (lines 97-122) on a
configured store: query for records whose `Provider` equals `provider`;
if any is found, `PATCH` the first one's `Provider`/`Details` fields;
else `POST` a new record with those fields. -/
def airtableCreateOrUpdate : List AirRecord → String → String → List AirRecord
  | [], provider, details => [⟨provider, details⟩]
  | r :: rs, provider, details =>
    if r.provider == provider then ⟨provider, details⟩ :: rs
    else r :: airtableCreateOrUpdate rs provider details

/-! ## Command router -/

def ALLOWED_PROVIDERS : List String := ["jazzcash", "easypaisa"]

/-- `message.from` as used by the router. -/
structure FromUser where
  id : Int
  first_name : Option String
  username : Option String
  deriving Repr, DecidableEq

/-- JavaScript `a || b` for a possibly-absent string `a` (absent and empty
are falsy). -/
def jsOrStr (a : Option String) (b : String) : String :=
  match a with
  | none => b
  | some s => if s.isEmpty then b else s

/-- JavaScript `String(userId)` where `userId` may be `null`. -/
def jsStringOfId : Option Int → String
  | none => "null"
  | some n => toString n

/-- JavaScript `s.trim()`: strip leading and trailing whitespace. -/
def jsTrim (s : String) : String :=
  String.mk (((s.data.dropWhile Char.isWhitespace).reverse.dropWhile Char.isWhitespace).reverse)

/-- JavaScript `s.toLowerCase()` (all inputs here are ASCII command
tokens, where the two agree character by character). -/
def jsToLower (s : String) : String :=
  String.mk (s.data.map Char.toLower)

/-- JavaScript `s.startsWith('/')`. -/
def jsStartsWithSlash (s : String) : Bool :=
  s.data.head? == some '/'

/-- Accumulator-style splitter behind `jsSplitWs`. -/
def splitWsAux : List Char → List Char → List String
  | [], acc => if acc.isEmpty then [] else [String.mk acc.reverse]
  | c :: cs, acc =>
    if c.isWhitespace then
      (if acc.isEmpty then [] else [String.mk acc.reverse]) ++ splitWsAux cs []
    else splitWsAux cs (c :: acc)

/-- `s.split(/\s+/)` on an already-trimmed `s`: the whitespace-separated
tokens. (On entirely blank text JS yields `[""]` and this yields `[]`;
both make `cmd` the empty string, and the arity test `parts.length < 3`
is only reached when `parts[0]` is a `setpayment` token, where the two
agree.) -/
def jsSplitWs (s : String) : List String := splitWsAux s.data []

/-- The admin check in the `setpayment` branch (line 165):
`ADMIN_IDS.length ? ADMIN_IDS.includes(String(userId)) : true`. -/
def isAdminSender (adminIds : List String) (userId : Option Int) : Bool :=
  if adminIds.length != 0 then adminIds.contains (jsStringOfId userId) else true

/-- The first token of the trimmed text, lowercased (`parts[0].toLowerCase()`). -/
def cmdOf (text : String) : String :=
  jsToLower ((jsSplitWs (jsTrim text)).headD "")

/-- The branch of `handleCommand`'s dispatch chain an input reaches. -/
inductive Route where
  | start
  | profile
  | setpayment
  | getpayments
  | unknownSlash
  | plain
  deriving Repr, DecidableEq

/-- The dispatch chain of `handleCommand` (lines 134-220), in source
order: each guard is the disjunction written in the source, the
`unknownSlash` fallback is guarded by `text.startsWith('/')`. -/
def routeOf (text : String) : Route :=
  let cmd := cmdOf text
  if cmd == "/start" || cmd == "start" then .start
  else if cmd == "/profile" || cmd == "/me" then .profile
  else if cmd == "/setpayment" || cmd == "setpayment" then .setpayment
  else if cmd == "/getpayments" || cmd == "/payments" then .getpayments
  else if jsStartsWithSlash text then .unknownSlash
  else .plain

/-! ### Reply texts (string literals from the source, in source order) -/

def slowDownText : String := "Slow down, boss — too many commands at once. 😅"

def startReplyText : String :=
  String.intercalate "\n"
    ["*Welcome to VHub — Premium Edition!*",
     "",
     "Available commands:",
     "/start — show this help",
     "/profile — view your basic profile",
     "/setpayment <provider> <details> — admin only",
     "/getpayments — list payment methods",
     "",
     "Providers: jazzcash, easypaisa"]

/-- The `/profile` reply text: `name` is
`(message.from && (message.from.first_name || message.from.username)) || 'User'`,
and the Telegram line shows `'@' + safeText(username)` when `message.from`
and a truthy username exist, else a dash placeholder. -/
def profileMsgText (msgFrom : Option FromUser) (userId : Option Int) : String :=
  let name :=
    match msgFrom with
    | none => "User"
    | some f => jsOrStr f.first_name (jsOrStr f.username "User")
  "*Profile*\nName: " ++ safeText name ++ "\nID: " ++ jsStringOfId userId ++
    "\nTelegram: " ++
    (match msgFrom with
     | some f =>
       if jsTruthyStr f.username then "@" ++ safeText (f.username.getD "") else "—"
     | none => "—")

def adminOnlyText : String := "Only admin(s) can use /setpayment."

def usageText : String :=
  "Usage: /setpayment <provider> <details>\nExample: /setpayment easypaisa 03xx-xxxxxxx"

def invalidProviderText : String :=
  "Invalid provider. Allowed: " ++ String.intercalate ", " ALLOWED_PROVIDERS

def updatedText (provider : String) : String :=
  "✅ Updated *" ++ provider ++ "* details."

def configuredEchoText (provider details : String) : String :=
  "Configured " ++ provider ++ ": " ++ details

def noPaymentsText : String := "No payment details configured yet."

/-- The `/getpayments` list: header plus one bulleted line per record,
from `out += ...` over `records` with `f.Provider || 'unknown'` and
`f.Details || ''` (the latter is the identity on a string field). -/
def getpaymentsText (records : List AirRecord) : String :=
  records.foldl
    (fun out r =>
      out ++ "\n- *" ++ safeText (jsOrStr (some r.provider) "unknown") ++ "*: "
        ++ safeText r.details)
    "*Current Payment Details:*\n"

def unknownCommandText : String := "Unknown command. Use /start to see available commands."

def plainTextReply : String := "I only understand a few commands for now. Try /start."

/-! ### `handleCommand` -/

/-- One observable external action of a run: an outbound
`tg('sendMessage', ...)` with its `text` and optional `parse_mode`, or an
Airtable call. -/
inductive Effect where
  | send (chatId : Int) (text : String) (parseMode : Option String)
  | upsert (provider details : String)
  | listRecords
  deriving Repr, DecidableEq

/-- The environment configuration the webhook reads at startup:
`TELEGRAM_ADMIN_IDS` split into `ADMIN_IDS`, and the Airtable settings. -/
structure Env where
  adminIds : List String
  airtable : AirtableConfig
  deriving Repr, DecidableEq

structure HCResult where
  rateMap : RateMap
  store : List AirRecord
  effects : List Effect
  deriving Repr, DecidableEq

/-- `handleCommand(chatId, userId, text, message)` (lines 134-220), on the
run where external calls succeed: the rate-limit gate, then the dispatch
chain (`routeOf` spells out its guards verbatim). The Airtable table
before the call is `store`; the result carries the updated rate map, the
updated table, and the trace of outbound messages and store calls. -/
def handleCommand (env : Env) (now : Nat) (rm : RateMap) (store : List AirRecord)
    (chatId : Int) (userId : Option Int) (text : String) (msgFrom : Option FromUser) :
    HCResult :=
  let gate := allowRate now chatId rm
  let rm' := gate.2
  if !gate.1 then
    ⟨rm', store, [.send chatId slowDownText none]⟩
  else
    let parts := jsSplitWs (jsTrim text)
    match routeOf text with
    | .start => ⟨rm', store, [.send chatId startReplyText (some "Markdown")]⟩
    | .profile =>
      ⟨rm', store, [.send chatId (profileMsgText msgFrom userId) (some "Markdown")]⟩
    | .setpayment =>
      if !isAdminSender env.adminIds userId then
        ⟨rm', store, [.send chatId adminOnlyText none]⟩
      else if parts.length < 3 then
        ⟨rm', store, [.send chatId usageText none]⟩
      else
        let provider := jsToLower (parts.getD 1 "")
        if !(ALLOWED_PROVIDERS.contains provider) then
          ⟨rm', store, [.send chatId invalidProviderText none]⟩
        else
          let details := String.intercalate " " (parts.drop 2)
          if airtableConfigured env.airtable then
            ⟨rm', airtableCreateOrUpdate store provider details,
             [.upsert provider details,
              .send chatId (updatedText provider) (some "Markdown")]⟩
          else
            ⟨rm', store, [.send chatId (configuredEchoText provider details) none]⟩
    | .getpayments =>
      let records := airtableGetAll env.airtable (.ok store)
      if records.isEmpty then
        ⟨rm', store, [.listRecords, .send chatId noPaymentsText none]⟩
      else
        ⟨rm', store,
         [.listRecords, .send chatId (getpaymentsText records) (some "Markdown")]⟩
    | .unknownSlash => ⟨rm', store, [.send chatId unknownCommandText none]⟩
    | .plain => ⟨rm', store, [.send chatId plainTextReply none]⟩

/-! ## Netlify handler (`exports.handler`, lines 227-259)

The inbound transport event carries an HTTP method and a body;
`JSON.parse(event.body)` either yields an update object (modelled by the
fields the handler reads) or throws, in which case `body = {}` — modelled
as `none`. The `message.from` field is named `fromUser` here (`from` is a
Lean keyword). JavaScript makes a chat or user id of `0` falsy in the
`a && a.b || c` extraction chains, which `jsTruthyIntOpt` reproduces. -/

structure Chat where
  id : Int
  deriving Repr, DecidableEq

structure Msg where
  text : Option String
  chat : Option Chat
  fromUser : Option FromUser
  deriving Repr, DecidableEq

structure CallbackQuery where
  message : Option Msg
  deriving Repr, DecidableEq

structure Update where
  message : Option Msg
  edited_message : Option Msg
  callback_query : Option CallbackQuery
  deriving Repr, DecidableEq

structure HttpEvent where
  httpMethod : String
  body : Option Update
  deriving Repr, DecidableEq

def emptyMsg : Msg := ⟨none, none, none⟩

def emptyUpdate : Update := ⟨none, none, none⟩

/-- `update.message || update.edited_message || (update.callback_query &&
update.callback_query.message) || {}`. -/
def effectiveMsg (u : Update) : Msg :=
  match u.message with
  | some m => m
  | none =>
    match u.edited_message with
    | some m => m
    | none =>
      match u.callback_query with
      | some cq =>
        match cq.message with
        | some m => m
        | none => emptyMsg
      | none => emptyMsg

/-- JavaScript truthiness filter on a possibly-absent number (`0` is falsy). -/
def jsTruthyIntOpt : Option Int → Option Int
  | none => none
  | some n => if n == 0 then none else some n

/-- `(message.chat && message.chat.id) || (update.message &&
update.message.chat && update.message.chat.id) || null`. -/
def chatIdOf (u : Update) : Option Int :=
  match jsTruthyIntOpt ((effectiveMsg u).chat.map Chat.id) with
  | some n => some n
  | none => jsTruthyIntOpt ((u.message.bind Msg.chat).map Chat.id)

/-- `(message.from && message.from.id) || (update.message &&
update.message.from && update.message.from.id) || null`. -/
def fromIdOf (u : Update) : Option Int :=
  match jsTruthyIntOpt ((effectiveMsg u).fromUser.map FromUser.id) with
  | some n => some n
  | none => jsTruthyIntOpt ((u.message.bind Msg.fromUser).map FromUser.id)

structure HttpResponse where
  statusCode : Nat
  body : String
  deriving Repr, DecidableEq

def okResponse : HttpResponse := ⟨200, "ok"⟩

/-- Result of one handler invocation: the HTTP response, the rate map and
store after the call, the trace of external effects, and whether
`handleCommand` was invoked at all. -/
structure HandlerResult where
  response : HttpResponse
  rateMap : RateMap
  store : List AirRecord
  effects : List Effect
  routerInvoked : Bool
  deriving Repr, DecidableEq

/-- `exports.handler` (lines 227-259). `procThrows` is the oracle for
`await handleCommand(...)` raising (a fault in an external call): the
surrounding `try/catch` then returns the 200 acknowledgment; this branch
is only used for the response-level claim, so the state it reports is the
pre-call one. -/
def handler (env : Env) (now : Nat) (rm : RateMap) (store : List AirRecord)
    (event : HttpEvent) (procThrows : Bool) : HandlerResult :=
  if event.httpMethod != "POST" then
    ⟨okResponse, rm, store, [], false⟩
  else
    let update := event.body.getD emptyUpdate
    let message := effectiveMsg update
    let text := jsTrim (jsOrStr message.text "")
    match chatIdOf update with
    | none => ⟨okResponse, rm, store, [], false⟩
    | some chatId =>
      if procThrows then
        ⟨okResponse, rm, store, [], true⟩
      else
        let r := handleCommand env now rm store chatId (fromIdOf update) text message.fromUser
        ⟨okResponse, r.rateMap, r.store, r.effects, true⟩

/-! ## Derived predicates used by the statements -/

/-- The records of the table whose `Provider` field is `p`. -/
def providerRecords (store : List AirRecord) (p : String) : List AirRecord :=
  store.filter (fun r => r.provider == p)

/-- Run a sequence of upserts (one per non-concurrent `/setpayment` call
that reaches the store). -/
def upsertRun (store : List AirRecord) (cmds : List (String × String)) : List AirRecord :=
  cmds.foldl (fun s c => airtableCreateOrUpdate s c.1 c.2) store

/-- The details of the last command in `cmds` for provider `p`, if any. -/
def lastDetails (cmds : List (String × String)) (p : String) : Option String :=
  ((cmds.filter (fun c => c.1 == p)).getLast?).map (fun c => c.2)

/-- The `parts` variable of `handleCommand` (`text.trim().split(/\s+/)`). -/
def partsOf (text : String) : List String :=
  jsSplitWs (jsTrim text)

/-- Every window stored in the rate map has a count between 1 and
`RATE_LIMIT_MAX`. -/
def RateInv (rm : RateMap) : Prop :=
  ∀ p ∈ rm, 1 ≤ p.2.count ∧ p.2.count ≤ RATE_LIMIT_MAX

instance (rm : RateMap) : Decidable (RateInv rm) :=
  inferInstanceAs (Decidable (∀ p ∈ rm, _ ∧ _))

/-- The dispatch table as a function of the lowercased first token and the
leading-marker test: the shape the specification describes the router by.
Compared against `routeOf` (the source's dispatch chain) below. -/
def routeFromCmd (cmd : String) (slash : Bool) : Route :=
  if cmd == "/start" || cmd == "start" then .start
  else if cmd == "/profile" || cmd == "/me" then .profile
  else if cmd == "/setpayment" || cmd == "setpayment" then .setpayment
  else if cmd == "/getpayments" || cmd == "/payments" then .getpayments
  else if slash then .unknownSlash
  else .plain

/-! ## Sanity checks on concrete inputs -/

example : (allowRate 0 7 []).1 = true := by decide

example : (runCalls 7 [0, 1, 2, 3, 4] []).1 = [true, true, true, false, false] := by decide

example : (allowRate 5001 7 (runCalls 7 [0, 1, 2, 3, 4] []).2).1 = true := by decide

example : safeText "a*b_c[d]e" = "abcde" := by decide

example :
    airtableCreateOrUpdate [⟨"jazzcash", "a"⟩, ⟨"easypaisa", "b"⟩] "jazzcash" "c"
      = [⟨"jazzcash", "c"⟩, ⟨"easypaisa", "b"⟩] := by decide

example :
    airtableCreateOrUpdate [⟨"easypaisa", "b"⟩] "jazzcash" "c"
      = [⟨"easypaisa", "b"⟩, ⟨"jazzcash", "c"⟩] := by decide

example : jsSplitWs "/setpayment  jazzcash  0300 1" = ["/setpayment", "jazzcash", "0300", "1"] := by
  decide

example : routeOf "  /START  " = .start := by decide

example : routeOf "/help" = .unknownSlash := by decide

example :
    handleCommand ⟨[], ⟨some "k", some "b"⟩⟩ 0 [] [] 1 (some 42)
        "/setpayment jazzcash 0300-1234567" none
      = ⟨[(1, ⟨1, 5000⟩)], [⟨"jazzcash", "0300-1234567"⟩],
         [.upsert "jazzcash" "0300-1234567",
          .send 1 (updatedText "jazzcash") (some "Markdown")]⟩ := by decide

example :
    (handleCommand ⟨["42"], ⟨some "k", some "b"⟩⟩ 0 [] [] 1 (some 7)
        "/setpayment jazzcash x" none).effects
      = [.send 1 adminOnlyText none] := by decide

example :
    (handleCommand ⟨[], ⟨some "k", some "b"⟩⟩ 0 [] [⟨"jazzcash", "A"⟩] 1 none
        "/payments" none).effects
      = [.listRecords,
         .send 1 "*Current Payment Details:*\n\n- *jazzcash*: A" (some "Markdown")] := by decide

example :
    (handleCommand ⟨[], ⟨some "k", some "b"⟩⟩ 0 [] [] 1 (some 5) "/me"
        (some ⟨5, some "Bo*b", none⟩)).effects
      = [.send 1 "*Profile*\nName: Bob\nID: 5\nTelegram: —" (some "Markdown")] := by decide

example :
    handler ⟨[], ⟨some "k", some "b"⟩⟩ 0 [] [] ⟨"GET", none⟩ false
      = ⟨okResponse, [], [], [], false⟩ := by decide

example :
    (handler ⟨[], ⟨some "k", some "b"⟩⟩ 0 [] []
        ⟨"POST", some ⟨some ⟨some "/start", some ⟨9⟩, none⟩, none, none⟩⟩ false).effects
      = [.send 9 startReplyText (some "Markdown")] := by decide

/-! ## Rate limiter lemmas -/

theorem rmGet_rmSet_self (rm : RateMap) (k : Int) (w : RateWindow) :
    rmGet (rmSet rm k w) k = some w := by
  induction rm with
  | nil => simp [rmSet, rmGet]
  | cons p rest ih =>
    by_cases hp : p.1 == k
    · simp [rmSet, rmGet, hp]
    · simp only [rmSet, hp, if_neg, Bool.false_eq_true, not_false_iff, ite_false]
      simpa [rmGet, List.find?, hp] using ih

theorem mem_rmSet (rm : RateMap) (k : Int) (w : RateWindow) (p : Int × RateWindow)
    (h : p ∈ rmSet rm k w) : p = (k, w) ∨ p ∈ rm := by
  induction rm with
  | nil => simpa [rmSet] using h
  | cons q rest ih =>
    by_cases hq : q.1 == k
    · simp only [rmSet, hq, ite_true, List.mem_cons] at h
      rcases h with h | h
      · exact Or.inl h
      · exact Or.inr (List.mem_cons_of_mem _ h)
    · simp only [rmSet, hq, Bool.false_eq_true, ite_false, List.mem_cons] at h
      rcases h with h | h
      · exact Or.inr (by simp [h])
      · rcases ih h with h' | h'
        · exact Or.inl h'
        · exact Or.inr (List.mem_cons_of_mem _ h')

/-- Shifting a map over `List.range (n+1)`. -/
theorem range_succ_map_head (f : Nat → Bool) (n : Nat) :
    List.map f (List.range (n + 1))
      = f 0 :: List.map (fun j => f (j + 1)) (List.range n) := by
  rw [List.range_succ_eq_map]
  simp [List.map_map, Function.comp_def]

/-- Behavior of a run of calls all landing inside an existing window. -/
theorem runCalls_inWindow (chatId : Int) (ts : List Nat) :
    ∀ (rm : RateMap) (c R : Nat),
      rmGet rm chatId = some ⟨c, R⟩ →
      1 ≤ c → c ≤ RATE_LIMIT_MAX →
      (∀ t ∈ ts, t ≤ R) →
      (runCalls chatId ts rm).1
          = (List.range ts.length).map (fun i => decide (c + i < RATE_LIMIT_MAX))
        ∧ rmGet (runCalls chatId ts rm).2 chatId
          = some ⟨min (c + ts.length) RATE_LIMIT_MAX, R⟩ := by
  induction ts with
  | nil =>
    intro rm c R hget h1 h3 _
    refine ⟨rfl, ?_⟩
    simp only [List.length_nil, Nat.add_zero, runCalls]
    rw [min_eq_left h3]
    exact hget
  | cons t rest ih =>
    intro rm c R hget h1 h3 hts
    have ht : t ≤ R := hts t (List.mem_cons_self _ _)
    by_cases hc : c < RATE_LIMIT_MAX
    · have hstep : allowRate t chatId rm = (true, rmSet rm chatId ⟨c + 1, R⟩) := by
        simp [allowRate, hget, Nat.not_lt.mpr ht, hc]
      have hget' : rmGet (rmSet rm chatId ⟨c + 1, R⟩) chatId = some ⟨c + 1, R⟩ :=
        rmGet_rmSet_self _ _ _
      obtain ⟨hres, hfin⟩ :=
        ih (rmSet rm chatId ⟨c + 1, R⟩) (c + 1) R hget' (by omega) (by omega)
          (fun t' ht' => hts t' (List.mem_cons_of_mem _ ht'))
      constructor
      · simp only [runCalls, hstep, hres, List.length_cons, range_succ_map_head]
        congr 1
        · simp only [Nat.add_zero]
          exact (decide_eq_true hc).symm
        · apply List.map_congr_left
          intro i _
          simp only [decide_eq_decide]
          omega
      · simp only [runCalls, hstep, hfin, List.length_cons]
        have : c + 1 + rest.length = c + (rest.length + 1) := by omega
        rw [this]
    · have hstep : allowRate t chatId rm = (false, rm) := by
        simp [allowRate, hget, Nat.not_lt.mpr ht, hc]
      obtain ⟨hres, hfin⟩ := ih rm c R hget h1 h3
        (fun t' ht' => hts t' (List.mem_cons_of_mem _ ht'))
      constructor
      · simp only [runCalls, hstep, hres, List.length_cons, range_succ_map_head]
        congr 1
        · simp only [Nat.add_zero]
          exact (decide_eq_false hc).symm
        · apply List.map_congr_left
          intro i _
          simp only [decide_eq_decide]
          omega
      · simp only [runCalls, hstep, hfin, List.length_cons]
        have hmin : min (c + rest.length) RATE_LIMIT_MAX
            = min (c + (rest.length + 1)) RATE_LIMIT_MAX := by
          simp only [RATE_LIMIT_MAX] at *
          omega
        rw [hmin]

/-- Counts looked up through `rmGet` obey the entrywise invariant. -/
theorem rateInv_lookup (rm : RateMap) (h : RateInv rm) (k : Int) (w : RateWindow)
    (hw : rmGet rm k = some w) : 1 ≤ w.count ∧ w.count ≤ RATE_LIMIT_MAX := by
  unfold rmGet at hw
  cases hfind : List.find? (fun p => p.1 == k) rm with
  | none => rw [hfind] at hw; simp at hw
  | some p =>
    rw [hfind] at hw
    have hpw : p.2 = w := by simpa using hw
    exact hpw ▸ h p (List.mem_of_find?_eq_some hfind)

/-- C2: for every conversation id, a call at a fresh instant `t0` opens a
window; the results of that call and of any further calls inside the
window (`t ≤ t0 + W`) are `true` for exactly the first `RATE_LIMIT_MAX`
calls and `false` for every further one, and the first call after the
window's `resetAt` has elapsed is allowed again. -/
theorem allowRate_window_behavior
    (rm : RateMap) (chatId : Int) (t0 : Nat) (ts : List Nat) (tLater : Nat)
    (hfresh : rmGet rm chatId = none ∨ ∃ w, rmGet rm chatId = some w ∧ w.resetAt < t0)
    (hin : ∀ t ∈ ts, t ≤ t0 + RATE_LIMIT_WINDOW_MS)
    (hlater : t0 + RATE_LIMIT_WINDOW_MS < tLater) :
    (runCalls chatId (t0 :: ts) rm).1
        = (List.range (ts.length + 1)).map (fun i => decide (i < RATE_LIMIT_MAX))
      ∧ (allowRate tLater chatId (runCalls chatId (t0 :: ts) rm).2).1 = true := by
  have hfirst : allowRate t0 chatId rm
      = (true, rmSet rm chatId ⟨1, t0 + RATE_LIMIT_WINDOW_MS⟩) := by
    rcases hfresh with h | ⟨w, hw, hlt⟩
    · simp [allowRate, h]
    · simp [allowRate, hw, hlt]
  have hget1 : rmGet (rmSet rm chatId ⟨1, t0 + RATE_LIMIT_WINDOW_MS⟩) chatId
      = some ⟨1, t0 + RATE_LIMIT_WINDOW_MS⟩ := rmGet_rmSet_self _ _ _
  obtain ⟨hres, hfin⟩ := runCalls_inWindow chatId ts _ 1 (t0 + RATE_LIMIT_WINDOW_MS) hget1
    (le_refl 1) (by simp [RATE_LIMIT_MAX]) hin
  constructor
  · simp only [runCalls, hfirst, hres, range_succ_map_head]
    have htail : List.map (fun i => decide (1 + i < RATE_LIMIT_MAX)) (List.range ts.length)
        = List.map (fun i => decide (i + 1 < RATE_LIMIT_MAX)) (List.range ts.length) := by
      apply List.map_congr_left
      intro i _
      simp only [decide_eq_decide]
      omega
    rw [htail]
    have hhead : decide (0 < RATE_LIMIT_MAX) = true := by decide
    rw [hhead]
  · simp only [runCalls, hfirst]
    simp [allowRate, hfin, hlater]

/-- Witness for C2 at a concrete run: chat 7, window opened at 0, four
more calls inside the window, then one at 5001. -/
theorem allowRate_window_behavior_witness :
    (runCalls 7 [0, 1, 2, 3, 4] []).1
        = (List.range 5).map (fun i => decide (i < RATE_LIMIT_MAX))
      ∧ (allowRate 5001 7 (runCalls 7 [0, 1, 2, 3, 4] []).2).1 = true :=
  allowRate_window_behavior [] 7 0 [1, 2, 3, 4] 5001 (Or.inl (by decide))
    (by decide) (by decide)

/-- C9: every window in the rate map keeps `1 ≤ count ≤ RATE_LIMIT_MAX`;
`allowRate` preserves the invariant (also read back through `rmGet`), and
when the window is live and the count has reached the maximum, the map is
left unchanged (the count is only incremented strictly below the maximum). -/
theorem allowRate_preserves_count_invariant
    (now : Nat) (chatId : Int) (rm : RateMap) (h : RateInv rm) :
    RateInv (allowRate now chatId rm).2
      ∧ (∀ k w, rmGet (allowRate now chatId rm).2 k = some w →
          1 ≤ w.count ∧ w.count ≤ RATE_LIMIT_MAX)
      ∧ (∀ data, rmGet rm chatId = some data → ¬ now > data.resetAt →
          ¬ data.count < RATE_LIMIT_MAX → (allowRate now chatId rm).2 = rm) := by
  have hmax : RATE_LIMIT_MAX = 3 := rfl
  have hinv : RateInv (allowRate now chatId rm).2 := by
    cases hget : rmGet rm chatId with
    | none =>
      simp only [allowRate, hget]
      intro p hp
      rcases mem_rmSet _ _ _ _ hp with hp' | hp'
      · rw [hp']
        exact ⟨le_refl 1, (by decide : (1 : Nat) ≤ RATE_LIMIT_MAX)⟩
      · exact h p hp'
    | some data =>
      by_cases hexp : now > data.resetAt
      · simp only [allowRate, hget, hexp, ite_true]
        intro p hp
        rcases mem_rmSet _ _ _ _ hp with hp' | hp'
        · rw [hp']
          exact ⟨le_refl 1, (by decide : (1 : Nat) ≤ RATE_LIMIT_MAX)⟩
        · exact h p hp'
      · by_cases hcount : data.count < RATE_LIMIT_MAX
        · simp only [allowRate, hget, hexp, ite_false, hcount, ite_true]
          intro p hp
          rcases mem_rmSet _ _ _ _ hp with hp' | hp'
          · rw [hp']
            exact ⟨Nat.le_add_left 1 data.count, Nat.succ_le_of_lt hcount⟩
          · exact h p hp'
        · simpa only [allowRate, hget, hexp, ite_false, hcount] using h
  refine ⟨hinv, fun k w hw => rateInv_lookup _ hinv k w hw, ?_⟩
  intro data hdata hexp hcount
  simp [allowRate, hdata, hexp, hcount]

/-- Witness for C9: the invariant holds after a call on a concrete map
with a live, saturated window. -/
theorem allowRate_preserves_count_invariant_witness :
    RateInv (allowRate 10 5 [(5, ⟨3, 100⟩)]).2
      ∧ (∀ k w, rmGet (allowRate 10 5 [(5, ⟨3, 100⟩)]).2 k = some w →
          1 ≤ w.count ∧ w.count ≤ RATE_LIMIT_MAX)
      ∧ (∀ data, rmGet [(5, ⟨3, 100⟩)] 5 = some data → ¬ 10 > data.resetAt →
          ¬ data.count < RATE_LIMIT_MAX → (allowRate 10 5 [(5, ⟨3, 100⟩)]).2
            = [(5, ⟨3, 100⟩)]) :=
  allowRate_preserves_count_invariant 10 5 [(5, ⟨3, 100⟩)] (by decide)

/-! ## Airtable upsert lemmas -/

theorem providerRecords_upsert_self (s : List AirRecord) (p d : String)
    (h : (providerRecords s p).length ≤ 1) :
    providerRecords (airtableCreateOrUpdate s p d) p = [⟨p, d⟩] := by
  induction s with
  | nil => simp [airtableCreateOrUpdate, providerRecords]
  | cons r rs ih =>
    by_cases hr : r.provider == p
    · have hrest : providerRecords rs p = [] := by
        have h' := h
        simp only [providerRecords, List.filter_cons, hr, ite_true, List.length_cons] at h'
        have h0 : (List.filter (fun r => r.provider == p) rs).length = 0 := by omega
        simpa [providerRecords] using List.length_eq_zero.mp h0
      simp only [airtableCreateOrUpdate, hr, ite_true]
      simpa [providerRecords, List.filter_cons] using hrest
    · have h' : (providerRecords rs p).length ≤ 1 := by
        simpa [providerRecords, List.filter_cons, hr] using h
      simp only [airtableCreateOrUpdate, hr, Bool.false_eq_true, ite_false]
      simpa [providerRecords, List.filter_cons, hr] using ih h'

theorem providerRecords_upsert_other (s : List AirRecord) (p d q : String) (hq : q ≠ p) :
    providerRecords (airtableCreateOrUpdate s p d) q = providerRecords s q := by
  have hpq : (p == q) = false := beq_eq_false_iff_ne.mpr (Ne.symm hq)
  induction s with
  | nil => simp [airtableCreateOrUpdate, providerRecords, hpq]
  | cons r rs ih =>
    by_cases hr : r.provider == p
    · have hrq : (r.provider == q) = false := by
        have : r.provider = p := eq_of_beq hr
        rw [this]
        exact hpq
      simp [airtableCreateOrUpdate, hr, providerRecords, List.filter_cons, hpq, hrq]
    · simp only [airtableCreateOrUpdate, hr, Bool.false_eq_true, ite_false]
      by_cases hrq : r.provider == q
      · simpa [providerRecords, List.filter_cons, hrq] using ih
      · simpa [providerRecords, List.filter_cons, hrq] using ih

theorem providerRecords_upsert_le_one (s : List AirRecord) (p d : String)
    (h : ∀ q, (providerRecords s q).length ≤ 1) :
    ∀ q, (providerRecords (airtableCreateOrUpdate s p d) q).length ≤ 1 := by
  intro q
  by_cases hq : q = p
  · subst hq
    rw [providerRecords_upsert_self s q d (h q)]
    simp
  · rw [providerRecords_upsert_other s p d q hq]
    exact h q

theorem upsertRun_le_one (store : List AirRecord) (cmds : List (String × String))
    (h : ∀ q, (providerRecords store q).length ≤ 1) :
    ∀ q, (providerRecords (upsertRun store cmds) q).length ≤ 1 := by
  induction cmds generalizing store with
  | nil => exact h
  | cons c rest ih => exact ih _ (providerRecords_upsert_le_one _ c.1 c.2 h)

theorem upsertRun_append (store : List AirRecord) (cmds : List (String × String))
    (c : String × String) :
    upsertRun store (cmds ++ [c]) = airtableCreateOrUpdate (upsertRun store cmds) c.1 c.2 := by
  simp [upsertRun, List.foldl_append]

theorem lastDetails_append (cmds : List (String × String)) (c : String × String) (p : String) :
    lastDetails (cmds ++ [c]) p
      = if c.1 == p then some c.2 else lastDetails cmds p := by
  by_cases hc : c.1 == p
  · simp [lastDetails, List.filter_append, hc]
  · simp [lastDetails, List.filter_append, hc]

/-- Core of C1: starting from a table with at most one record per
provider, after any sequence of upserts the records for a provider that
was written are exactly one, holding the details of its last write. -/
theorem upsertRun_exactly_one (store : List AirRecord) (cmds : List (String × String))
    (p d : String) (hinv : ∀ q, (providerRecords store q).length ≤ 1)
    (hlast : lastDetails cmds p = some d) :
    providerRecords (upsertRun store cmds) p = [⟨p, d⟩] := by
  induction cmds using List.reverseRecOn generalizing d with
  | nil => simp [lastDetails] at hlast
  | append_singleton l c ih =>
    rw [lastDetails_append] at hlast
    rw [upsertRun_append]
    by_cases hc : c.1 == p
    · rw [if_pos hc] at hlast
      obtain rfl : c.2 = d := by simpa using hlast
      have hc' : c.1 = p := eq_of_beq hc
      rw [hc']
      exact providerRecords_upsert_self _ _ _ (upsertRun_le_one store l hinv p)
    · rw [if_neg hc] at hlast
      have hne : p ≠ c.1 := fun h => hc (by rw [← h]; exact beq_self_eq_true p)
      rw [providerRecords_upsert_other _ _ _ _ hne]
      exact ih d hlast

/-- C1: for an admitted sender (rate-allowed, admin check passed), a
`/setpayment` text with a valid provider and a configured store, the
router performs exactly the find-then-patch-or-create upsert
(`airtableCreateOrUpdate`) with the lowercased provider token and the
space-joined detail tokens; and under non-concurrent sequences of such
upserts, a table holding at most one record per provider ends with
exactly one record for each written provider, carrying the most recently
supplied details. -/
theorem setpayment_upsert_exactly_one :
    (∀ (env : Env) (now : Nat) (rm : RateMap) (store : List AirRecord) (chatId : Int)
        (userId : Option Int) (text : String) (msgFrom : Option FromUser),
      (allowRate now chatId rm).1 = true →
      routeOf text = .setpayment →
      isAdminSender env.adminIds userId = true →
      3 ≤ (partsOf text).length →
      ALLOWED_PROVIDERS.contains (jsToLower ((partsOf text).getD 1 "")) = true →
      airtableConfigured env.airtable = true →
      handleCommand env now rm store chatId userId text msgFrom
        = ⟨(allowRate now chatId rm).2,
           airtableCreateOrUpdate store (jsToLower ((partsOf text).getD 1 ""))
             (String.intercalate " " ((partsOf text).drop 2)),
           [.upsert (jsToLower ((partsOf text).getD 1 ""))
              (String.intercalate " " ((partsOf text).drop 2)),
            .send chatId (updatedText (jsToLower ((partsOf text).getD 1 "")))
              (some "Markdown")]⟩)
    ∧ (∀ (store : List AirRecord) (cmds : List (String × String)) (p d : String),
        (∀ q, (providerRecords store q).length ≤ 1) →
        lastDetails cmds p = some d →
        providerRecords (upsertRun store cmds) p = [⟨p, d⟩]) := by
  constructor
  · intro env now rm store chatId userId text msgFrom hallow hroute hadmin hlen hprov hconf
    have hnotlt : ¬ (jsSplitWs (jsTrim text)).length < 3 := by
      simpa [partsOf] using Nat.not_lt.mpr hlen
    simp only [handleCommand, hallow, Bool.not_true, Bool.false_eq_true, ite_false, hroute,
      hadmin, hnotlt, hconf, ite_true]
    simp only [partsOf] at hprov
    simpa [partsOf, List.getD] using hprov
  · exact fun store cmds p d h1 h2 => upsertRun_exactly_one store cmds p d h1 h2

/-- Witness for C1: a first admin write into an empty configured store,
and a two-write sequence for the same provider. -/
theorem setpayment_upsert_exactly_one_witness :
    handleCommand ⟨[], ⟨some "k", some "b"⟩⟩ 0 [] [] 1 (some 42)
        "/setpayment jazzcash 0300-1234567" none
      = ⟨(allowRate 0 1 []).2,
         airtableCreateOrUpdate []
           (jsToLower ((partsOf "/setpayment jazzcash 0300-1234567").getD 1 ""))
           (String.intercalate " " ((partsOf "/setpayment jazzcash 0300-1234567").drop 2)),
         [.upsert (jsToLower ((partsOf "/setpayment jazzcash 0300-1234567").getD 1 ""))
            (String.intercalate " " ((partsOf "/setpayment jazzcash 0300-1234567").drop 2)),
          .send 1 (updatedText (jsToLower ((partsOf "/setpayment jazzcash 0300-1234567").getD 1 "")))
            (some "Markdown")]⟩
      ∧ providerRecords (upsertRun [] [("jazzcash", "a"), ("jazzcash", "b")]) "jazzcash"
          = [⟨"jazzcash", "b"⟩] :=
  ⟨setpayment_upsert_exactly_one.1 ⟨[], ⟨some "k", some "b"⟩⟩ 0 [] [] 1 (some 42)
      "/setpayment jazzcash 0300-1234567" none rfl rfl rfl (by decide) rfl rfl,
   setpayment_upsert_exactly_one.2 [] [("jazzcash", "a"), ("jazzcash", "b")] "jazzcash" "b"
      (fun _ => Nat.zero_le 1) rfl⟩

/-- C3: the `setpayment` authorization predicate: with an empty admin
allow-list every sender is admin; with a non-empty list a sender is admin
iff the string form of their id is listed; and a non-admin sender
issuing `/setpayment` gets only the admin-only refusal, with the store
untouched and no store call in the trace. -/
theorem setpayment_admin_policy :
    (∀ userId : Option Int, isAdminSender [] userId = true)
    ∧ (∀ (adminIds : List String) (userId : Option Int), adminIds ≠ [] →
        (isAdminSender adminIds userId = true ↔ jsStringOfId userId ∈ adminIds))
    ∧ (∀ (env : Env) (now : Nat) (rm : RateMap) (store : List AirRecord) (chatId : Int)
        (userId : Option Int) (text : String) (msgFrom : Option FromUser),
      (allowRate now chatId rm).1 = true →
      routeOf text = .setpayment →
      isAdminSender env.adminIds userId = false →
      handleCommand env now rm store chatId userId text msgFrom
        = ⟨(allowRate now chatId rm).2, store, [.send chatId adminOnlyText none]⟩) := by
  refine ⟨?_, ?_, ?_⟩
  · intro userId
    simp [isAdminSender]
  · intro adminIds userId hne
    cases adminIds with
    | nil => exact absurd rfl hne
    | cons a as => simp [isAdminSender]
  · intro env now rm store chatId userId text msgFrom hallow hroute hadmin
    simp only [handleCommand, hallow, Bool.not_true, Bool.false_eq_true, ite_false, hroute,
      hadmin, Bool.not_false, ite_true]

/-- Witness for C3: empty list admits anyone; the list `["42"]` admits
exactly id 42; sender 7 against `["42"]` is refused. -/
theorem setpayment_admin_policy_witness :
    isAdminSender [] (some 99) = true
    ∧ (isAdminSender ["42"] (some 42) = true ↔ jsStringOfId (some 42) ∈ ["42"])
    ∧ handleCommand ⟨["42"], ⟨some "k", some "b"⟩⟩ 0 [] [] 1 (some 7)
        "/setpayment jazzcash x" none
        = ⟨(allowRate 0 1 []).2, [], [.send 1 adminOnlyText none]⟩ :=
  ⟨setpayment_admin_policy.1 (some 99),
   setpayment_admin_policy.2.1 ["42"] (some 42) (by decide),
   setpayment_admin_policy.2.2 ⟨["42"], ⟨some "k", some "b"⟩⟩ 0 [] [] 1 (some 7)
      "/setpayment jazzcash x" none rfl rfl rfl⟩

/-- C6: for an admin sender, `/setpayment` with fewer than three tokens
replies with the usage message only, and with three or more tokens and a
provider (lowercased) outside the allowed list replies with the
invalid-provider message only — in both cases the store is untouched and
the trace holds no store call; the invalid-provider message lists exactly
`jazzcash, easypaisa`. -/
theorem setpayment_arity_and_provider_validation
    (env : Env) (now : Nat) (rm : RateMap) (store : List AirRecord) (chatId : Int)
    (userId : Option Int) (text : String) (msgFrom : Option FromUser)
    (hallow : (allowRate now chatId rm).1 = true)
    (hroute : routeOf text = .setpayment)
    (hadmin : isAdminSender env.adminIds userId = true) :
    ((partsOf text).length < 3 →
      handleCommand env now rm store chatId userId text msgFrom
        = ⟨(allowRate now chatId rm).2, store, [.send chatId usageText none]⟩)
    ∧ (3 ≤ (partsOf text).length →
        ALLOWED_PROVIDERS.contains (jsToLower ((partsOf text).getD 1 "")) = false →
        handleCommand env now rm store chatId userId text msgFrom
          = ⟨(allowRate now chatId rm).2, store, [.send chatId invalidProviderText none]⟩)
    ∧ invalidProviderText = "Invalid provider. Allowed: jazzcash, easypaisa" := by
  refine ⟨?_, ?_, by decide⟩
  · intro hlt
    have hlt' : (jsSplitWs (jsTrim text)).length < 3 := by simpa [partsOf] using hlt
    simp only [handleCommand, hallow, Bool.not_true, Bool.false_eq_true, ite_false, hroute,
      hadmin, Bool.not_false, hlt', ite_true]
  · intro hge hprov
    have hnotlt : ¬ (jsSplitWs (jsTrim text)).length < 3 := by
      simpa [partsOf] using Nat.not_lt.mpr hge
    have hprov' : (ALLOWED_PROVIDERS.contains
        (jsToLower ((jsSplitWs (jsTrim text)).getD 1 ""))) = false := by
      simpa [partsOf] using hprov
    simp only [handleCommand, hallow, Bool.not_true, Bool.false_eq_true, ite_false, hroute,
      hadmin, hnotlt, hprov', Bool.not_false, ite_true]

/-- Witness for C6: an admin two-token call and an admin call with
provider `bitcoin`. -/
theorem setpayment_arity_and_provider_validation_witness :
    handleCommand ⟨[], ⟨some "k", some "b"⟩⟩ 0 [] [] 1 (some 42) "/setpayment easypaisa" none
      = ⟨(allowRate 0 1 []).2, [], [.send 1 usageText none]⟩
    ∧ handleCommand ⟨[], ⟨some "k", some "b"⟩⟩ 0 [] [] 1 (some 42) "/setpayment bitcoin 123" none
      = ⟨(allowRate 0 1 []).2, [], [.send 1 invalidProviderText none]⟩ :=
  ⟨(setpayment_arity_and_provider_validation ⟨[], ⟨some "k", some "b"⟩⟩ 0 [] [] 1 (some 42)
      "/setpayment easypaisa" none rfl rfl rfl).1 (by decide),
   (setpayment_arity_and_provider_validation ⟨[], ⟨some "k", some "b"⟩⟩ 0 [] [] 1 (some 42)
      "/setpayment bitcoin 123" none rfl rfl rfl).2.1 (by decide) rfl⟩

/-- C7: `airtableGetAll` returns the empty list (it never raises: it is a
total function) when the credentials or base are unconfigured or the
response status is non-success, and under a store honoring the request's
`pageSize=50` parameter it returns at most 50 records. -/
theorem airtableGetAll_failure_empty_and_bounded (cfg : AirtableConfig)
    (outcome : FetchOutcome) :
    (airtableConfigured cfg = false → airtableGetAll cfg outcome = [])
    ∧ airtableGetAll cfg .notOk = []
    ∧ (∀ records : List AirRecord, records.length ≤ airtableGetAllPageSize →
        (airtableGetAll cfg (.ok records)).length ≤ 50)
    ∧ airtableGetAllPageSize = 50 := by
  refine ⟨?_, ?_, ?_, rfl⟩
  · intro h
    simp [airtableGetAll, h]
  · by_cases h : airtableConfigured cfg <;> simp [airtableGetAll, h]
  · intro records hrec
    by_cases h : airtableConfigured cfg
    · simpa [airtableGetAll, h, airtableGetAllPageSize] using hrec
    · simp [airtableGetAll, h]

/-- Witness for C7: unconfigured, failing, and successful bounded fetches. -/
theorem airtableGetAll_failure_empty_and_bounded_witness :
    airtableGetAll ⟨none, some "b"⟩ (.ok [⟨"jazzcash", "x"⟩]) = []
    ∧ airtableGetAll ⟨some "k", some "b"⟩ .notOk = []
    ∧ (airtableGetAll ⟨some "k", some "b"⟩ (.ok [⟨"jazzcash", "x"⟩])).length ≤ 50 :=
  ⟨(airtableGetAll_failure_empty_and_bounded ⟨none, some "b"⟩
      (.ok [⟨"jazzcash", "x"⟩])).1 rfl,
   (airtableGetAll_failure_empty_and_bounded ⟨some "k", some "b"⟩ .notOk).2.1,
   (airtableGetAll_failure_empty_and_bounded ⟨some "k", some "b"⟩
      (.ok [⟨"jazzcash", "x"⟩])).2.2.1 [⟨"jazzcash", "x"⟩] (by decide)⟩

/-- C8: every handler invocation — any method, any body shape, whether or
not internal processing raised — produces the `200 ok` acknowledgment. -/
theorem handler_always_returns_200 (env : Env) (now : Nat) (rm : RateMap)
    (store : List AirRecord) (event : HttpEvent) (procThrows : Bool) :
    (handler env now rm store event procThrows).response = okResponse
    ∧ okResponse.statusCode = 200 ∧ okResponse.body = "ok" := by
  refine ⟨?_, rfl, rfl⟩
  simp only [handler]
  by_cases hm : (event.httpMethod != "POST") = true
  · simp [hm]
  · simp only [hm, Bool.false_eq_true, ite_false]
    cases hc : chatIdOf (event.body.getD emptyUpdate) with
    | none => simp [hc]
    | some cid => cases procThrows <;> simp [hc]

/-- C10: a non-POST request, or a POST whose body yields no chat id, is
acknowledged `200 ok` while the rate map and store are unchanged, the
effect trace is empty, and `handleCommand` (hence the limiter and the
router) is never invoked. -/
theorem handler_ignores_non_post_and_missing_chat (env : Env) (now : Nat) (rm : RateMap)
    (store : List AirRecord) (event : HttpEvent) (procThrows : Bool)
    (h : event.httpMethod ≠ "POST" ∨ chatIdOf (event.body.getD emptyUpdate) = none) :
    handler env now rm store event procThrows = ⟨okResponse, rm, store, [], false⟩ := by
  unfold handler
  rcases h with h | h
  · have hb : (event.httpMethod != "POST") = true := by simpa using h
    simp [hb]
  · by_cases hm : event.httpMethod != "POST"
    · simp [hm]
    · simp [hm, h]

/-- Witness for C10: a POST whose update's chat id is `0` (falsy in the
extraction chain) is ignored. -/
theorem handler_ignores_non_post_and_missing_chat_witness :
    handler ⟨[], ⟨some "k", some "b"⟩⟩ 0 [] []
        ⟨"POST", some ⟨some ⟨some "/start", some ⟨0⟩, none⟩, none, none⟩⟩ false
      = ⟨okResponse, [], [], [], false⟩ :=
  handler_ignores_non_post_and_missing_chat ⟨[], ⟨some "k", some "b"⟩⟩ 0 [] []
    ⟨"POST", some ⟨some ⟨some "/start", some ⟨0⟩, none⟩, none, none⟩⟩ false
    (Or.inr (by decide))

/-- C4 fails on the code: `/profile` is recognized but its slashless form
`profile` falls through to the plain-text default branch, so the claim
that every recognized command routes identically with and without the
leading `/` is false (and `help` is not recognized at all). -/
theorem route_slashless_profile_counterexample :
    routeOf "/profile" = .profile ∧ routeOf "profile" = .plain
      ∧ routeOf "/help" = .unknownSlash := by
  decide

/-- C4 amended: the router dispatches on the lowercased first
whitespace-delimited token of the trimmed input (plus the raw-text `/`
test for the unknown-command fallback); `start` and `setpayment` are
accepted with and without the leading `/`, while `profile`/`me` and
`getpayments`/`payments` are only recognized with the leading `/` (their
slashless forms fall to the default branches), and `help` is not
recognized. -/
theorem routeOf_dispatch_table :
    (∀ text : String, routeOf text = routeFromCmd (cmdOf text) (jsStartsWithSlash text))
    ∧ routeFromCmd "/start" true = .start
    ∧ routeFromCmd "start" false = .start
    ∧ routeFromCmd "/profile" true = .profile
    ∧ routeFromCmd "/me" true = .profile
    ∧ routeFromCmd "/setpayment" true = .setpayment
    ∧ routeFromCmd "setpayment" false = .setpayment
    ∧ routeFromCmd "/getpayments" true = .getpayments
    ∧ routeFromCmd "/payments" true = .getpayments
    ∧ routeFromCmd "profile" false = .plain
    ∧ routeFromCmd "me" false = .plain
    ∧ routeFromCmd "getpayments" false = .plain
    ∧ routeFromCmd "payments" false = .plain
    ∧ routeFromCmd "/help" true = .unknownSlash
    ∧ routeOf "  /SetPayment jazzcash 0300  " = .setpayment
    ∧ routeOf "START" = .start
    ∧ routeOf "Me" = .plain :=
  ⟨fun _ => rfl, by decide⟩

/-! ## Sanitization lemmas -/

theorem safeText_not_mem (s : String) (c : Char) (hmem : c ∈ (safeText s).data) :
    c ∉ mdChars := by
  simp only [safeText] at hmem
  have h := List.mem_filter.mp hmem
  intro hc
  have h2 : c ∉ mdChars := by simpa using h.2
  exact h2 hc

theorem safeText_count_eq_zero (s : String) (c : Char) (hc : c ∈ mdChars) :
    (safeText s).data.count c = 0 :=
  List.count_eq_zero.mpr (fun hmem => safeText_not_mem s c hmem hc)

/-- Markdown-character census of the `/getpayments` accumulator fold. -/
theorem getpayments_fold_count (records : List AirRecord) (c : Char) (hc : c ∈ mdChars) :
    ∀ acc : String,
      (records.foldl
          (fun out r =>
            out ++ "\n- *" ++ safeText (jsOrStr (some r.provider) "unknown") ++ "*: "
              ++ safeText r.details) acc).data.count c
        = acc.data.count c + (if c = '*' then 2 * records.length else 0) := by
  have hsafe : ∀ s : String, (safeText s).data.count c = 0 :=
    fun s => safeText_count_eq_zero s c hc
  induction records with
  | nil =>
    intro acc
    simp
  | cons r rs ih =>
    intro acc
    rw [List.foldl_cons, ih]
    have hA : ("\n- *" : String).data.count c = if c = '*' then 1 else 0 := by
      fin_cases hc <;> decide
    have hB : ("*: " : String).data.count c = if c = '*' then 1 else 0 := by
      fin_cases hc <;> decide
    simp only [String.data_append, List.count_append, hsafe, hA, hB, List.length_cons]
    split_ifs <;> omega

/-- Markdown-character census of the `/getpayments` reply text. -/
theorem getpaymentsText_count (records : List AirRecord) (c : Char) (hc : c ∈ mdChars) :
    (getpaymentsText records).data.count c
      = if c = '*' then 2 + 2 * records.length else 0 := by
  have hH : ("*Current Payment Details:*\n" : String).data.count c
      = if c = '*' then 2 else 0 := by
    fin_cases hc <;> decide
  simp only [getpaymentsText]
  rw [getpayments_fold_count records c hc, hH]
  split_ifs <;> omega

/-- C5 fails on the code: with the store unconfigured, an admin
`/setpayment jazzcash *x*` is echoed with the user-supplied details
interpolated without `safeText`, so the outbound reply contains the
markdown-significant `*` characters originating from the user input (the
fixed template `Configured jazzcash: ` itself holds none). -/
theorem setpayment_echo_unsanitized_counterexample :
    (handleCommand ⟨[], ⟨none, none⟩⟩ 0 [] [] 1 (some 42)
        "/setpayment jazzcash *x*" none).effects
      = [.send 1 "Configured jazzcash: *x*" none]
    ∧ '*' ∈ mdChars
    ∧ '*' ∈ "Configured jazzcash: *x*".data
    ∧ ("Configured jazzcash: " : String).data.count '*' = 0 := by
  decide

/-- C5 amended: `safeText` removes every markdown-significant character
(`*`, `_`, backquote, `[`, `]`); the display name, username, and the
store-read provider/details are interpolated only through `safeText`, so
the `/profile` and `/getpayments` replies contain exactly the markdown
characters of their fixed templates; but the `/setpayment` echo sent when
the store is unconfigured interpolates provider and details verbatim. -/
theorem sanitization_of_interpolated_strings :
    (∀ (s : String) (c : Char), c ∈ (safeText s).data → c ∉ mdChars)
    ∧ (∀ (msgFrom : Option FromUser) (userId : Option Int),
        (∀ c ∈ (jsStringOfId userId).data, c ∉ mdChars) →
        ∀ c ∈ mdChars,
          (profileMsgText msgFrom userId).data.count c = if c = '*' then 2 else 0)
    ∧ (∀ records : List AirRecord, ∀ c ∈ mdChars,
        (getpaymentsText records).data.count c
          = if c = '*' then 2 + 2 * records.length else 0)
    ∧ (∀ provider details : String,
        configuredEchoText provider details
          = "Configured " ++ provider ++ ": " ++ details) := by
  refine ⟨safeText_not_mem, ?_, ?_, fun _ _ => rfl⟩
  · intro msgFrom userId hid c hc
    have hidc : (jsStringOfId userId).data.count c = 0 :=
      List.count_eq_zero.mpr (fun hmem => hid c hmem hc)
    have hsafe : ∀ s : String, (safeText s).data.count c = 0 :=
      fun s => safeText_count_eq_zero s c hc
    cases msgFrom with
    | none =>
      simp only [profileMsgText, String.data_append, List.count_append, hsafe, hidc]
      fin_cases hc <;> decide
    | some f =>
      by_cases hu : jsTruthyStr f.username
      · simp only [profileMsgText, hu, ite_true, String.data_append, List.count_append,
          hsafe, hidc]
        fin_cases hc <;> decide
      · simp only [profileMsgText, hu, Bool.false_eq_true, ite_false, String.data_append,
          List.count_append, hsafe, hidc]
        fin_cases hc <;> decide
  · intro records c hc
    exact getpaymentsText_count records c hc

/-- Witness for C5 amended: a profile reply with markdown in the name and
username keeps only the template's two `*`; a one-record payment list
keeps exactly the template's four. -/
theorem sanitization_of_interpolated_strings_witness :
    (profileMsgText (some ⟨5, some "Bo*b", some "u_ser"⟩) (some 5)).data.count '*' = 2
    ∧ (getpaymentsText [⟨"jazz*cash", "A*B"⟩]).data.count '*' = 2 + 2 * 1 := by
  constructor
  · have h := sanitization_of_interpolated_strings.2.1 (some ⟨5, some "Bo*b", some "u_ser"⟩)
      (some 5) (by decide) '*' (by decide)
    simpa using h
  · have h := sanitization_of_interpolated_strings.2.2.1 [⟨"jazz*cash", "A*B"⟩] '*' (by decide)
    simpa using h

end VHub
